import Mathlib

/-!
CoreSight private helpers (`drivers/hwtracing/coresight/coresight-priv.h`).

A shallow embedding of the inline helpers and macros of the header, and the
properties of them that the specification relies on.

Machine integers are natural numbers reduced explicitly modulo `2 ^ w`.
The register space is a byte-addressed memory together with a log of the
accesses performed; a 32-bit register is four consecutive bytes, little-endian.
-/

namespace Coresight

/-! ## Bit macros -/

/-- Modelled from the spec: `BIT(nr)` of `linux/bitops.h` (not among the sources),
`(1UL << (nr))`, on an unsigned long of `w` bits. -/
def BIT (w n : Nat) : Nat := (1 <<< n) % 2 ^ w

/-- Modelled from the spec: `GENMASK(h, l)` of `linux/bitops.h` (not among the sources),
`(((~0UL) - (1UL << (l)) + 1) & (~0UL >> (BITS_PER_LONG - 1 - (h))))`,
on an unsigned long of `w` bits. -/
def GENMASK (w h l : Nat) : Nat :=
  (((2 ^ w - 1) + 2 ^ w - (1 <<< l) % 2 ^ w) % 2 ^ w + 1) % 2 ^ w
    &&& ((2 ^ w - 1) >>> (w - 1 - h))

/-- Source: `#define BM(lsb, msb) ((BIT(msb) - BIT(lsb)) + BIT(msb))`, unsigned
arithmetic on `w` bits. -/
def BM (w lsb msb : Nat) : Nat :=
  ((BIT w msb + 2 ^ w - BIT w lsb) % 2 ^ w + BIT w msb) % 2 ^ w

/-- Source: `#define BMVAL(val, lsb, msb) ((val & GENMASK(msb, lsb)) >> lsb)`. -/
def BMVAL (w val lsb msb : Nat) : Nat := (val &&& GENMASK w msb lsb) >>> lsb

/-- Source: `#define BVAL(val, n) ((val & BIT(n)) >> n)`. -/
def BVAL (w val n : Nat) : Nat := (val &&& BIT w n) >>> n

/-- Modelled from the spec: `BITS_PER_LONG` of the kernel headers (not among the
sources); the width of the `unsigned long` in which `GENMASK` is computed on the
64-bit target of this tree. -/
def BITS_PER_LONG : Nat := 64

/-! ## Register offsets -/

/-- Source: `#define CORESIGHT_LAR 0xfb0`. -/
def CORESIGHT_LAR : Int := 0xfb0

/-- Source: `#define CORESIGHT_LSR 0xfb4`. -/
def CORESIGHT_LSR : Int := 0xfb4

/-- Source: `#define CORESIGHT_AUTHSTATUS 0xfb8`. -/
def CORESIGHT_AUTHSTATUS : Int := 0xfb8

/-! ## Memory-mapped register access -/

/-- One access to the register space, in program order. -/
inductive Access where
  | read (a : Int)
  | write (a : Int) (v : Nat)
  | barrier
deriving DecidableEq, Repr

/-- The register space: the byte found at each byte address (its value taken
modulo 256), and the accesses performed so far. -/
structure Iomem where
  mem : Int → Nat
  log : List Access

/-- The 32-bit register at byte address `a`: the four bytes `a .. a + 3`, least
significant first (the registers are little-endian). -/
def Iomem.regs (s : Iomem) (a : Int) : Nat :=
  s.mem a % 256 + (s.mem (a + 1) % 256) * 2 ^ 8 + (s.mem (a + 2) % 256) * 2 ^ 16
    + (s.mem (a + 3) % 256) * 2 ^ 24

/-- Modelled from the spec: `readl_relaxed` of `linux/io.h` (not among the sources), the
primitive 32-bit register read of the Register Access Layer: a little-endian
load of the four bytes at `a`. -/
def readl_relaxed (a : Int) (s : Iomem) : Nat × Iomem :=
  (s.regs a % 2 ^ 32, { mem := s.mem, log := s.log ++ [Access.read a] })

/-- Modelled from the spec: `writel_relaxed` of `linux/io.h` (not among the sources), the
primitive 32-bit register write of the Register Access Layer: a little-endian
store of `v` as a `u32` into the four bytes at `a`. -/
def writel_relaxed (v : Nat) (a : Int) (s : Iomem) : Iomem :=
  { mem := fun x =>
      if x = a then (v % 2 ^ 32) % 256
      else if x = a + 1 then (v % 2 ^ 32) / 2 ^ 8 % 256
      else if x = a + 2 then (v % 2 ^ 32) / 2 ^ 16 % 256
      else if x = a + 3 then (v % 2 ^ 32) / 2 ^ 24 % 256
      else s.mem x,
    log := s.log ++ [Access.write a (v % 2 ^ 32)] }

/-- Modelled from the spec: `mb` of the kernel headers (not among the sources), the
memory barrier; it orders accesses and changes no register. -/
def mb (s : Iomem) : Iomem :=
  { mem := s.mem, log := s.log ++ [Access.barrier] }

/-- Source: `CS_LOCK(addr)`: `mb(); writel_relaxed(0x0, addr + CORESIGHT_LAR);`. -/
def CS_LOCK (addr : Int) (s : Iomem) : Iomem :=
  writel_relaxed 0x0 (addr + CORESIGHT_LAR) (mb s)

/-- Source: `CS_UNLOCK(addr)`:
`writel_relaxed(CORESIGHT_UNLOCK, addr + CORESIGHT_LAR); mb();`.
The key `CORESIGHT_UNLOCK` is defined in `linux/coresight.h`, which is not among
the sources, and is taken as the parameter `unlockKey`. -/
def CS_UNLOCK (unlockKey : Nat) (addr : Int) (s : Iomem) : Iomem :=
  mb (writel_relaxed unlockKey (addr + CORESIGHT_LAR) s)

/-- Source: `coresight_read_reg_pair(addr, lo_offset, hi_offset)`; the result is a `u64`. -/
def coresight_read_reg_pair (addr lo_offset hi_offset : Int) (s : Iomem) :
    Nat × Iomem :=
  let r0 := readl_relaxed (addr + lo_offset) s
  let val := r0.1 % 2 ^ 64
  if hi_offset < 0 then
    ((val ||| 0) % 2 ^ 64, r0.2)
  else
    let r1 := readl_relaxed (addr + hi_offset) r0.2
    ((val ||| ((r1.1 % 2 ^ 64) <<< 32) % 2 ^ 64) % 2 ^ 64, r1.2)

/-- Source: `coresight_write_reg_pair(addr, val, lo_offset, hi_offset)`; `val` is a
`u64`, `(u32)val` and `(u32)(val >> 32)` are its two halves. -/
def coresight_write_reg_pair (addr : Int) (val : Nat) (lo_offset hi_offset : Int)
    (s : Iomem) : Iomem :=
  let s1 := writel_relaxed (val % 2 ^ 32) (addr + lo_offset) s
  if hi_offset ≥ 0 then
    writel_relaxed ((val >>> 32) % 2 ^ 32) (addr + hi_offset) s1
  else
    s1

/-- Source: `coresight_authstatus_enabled(addr)`; a null `addr` is the address `0`. -/
def coresight_authstatus_enabled (addr : Int) (s : Iomem) : Bool × Iomem :=
  if addr = 0 then
    (false, s)
  else
    let r := readl_relaxed (addr + CORESIGHT_AUTHSTATUS) s
    let auth_val := r.1
    if BMVAL BITS_PER_LONG auth_val 0 1 = 0x2 ∨
        BMVAL BITS_PER_LONG auth_val 2 3 = 0x2 ∨
        BMVAL BITS_PER_LONG auth_val 4 5 = 0x2 ∨
        BMVAL BITS_PER_LONG auth_val 6 7 = 0x2 then
      (false, r.2)
    else
      (true, r.2)

/-- The 2-bit field of the authentication status value `v` at bits
`2 * i + 1 : 2 * i`. -/
def authField (v i : Nat) : Nat := (v / 2 ^ (2 * i)) % 4

/-- The authentication status register of the component at `addr`, as read. -/
def authstatus (addr : Int) (s : Iomem) : Nat :=
  s.regs (addr + CORESIGHT_AUTHSTATUS) % 2 ^ 32

/-! ## CSR stubs (`CONFIG_CORESIGHT_CSR` undefined) -/

/-- Source: `struct coresight_csr`; the list linkage is not modelled. -/
structure coresight_csr where
  name : String
deriving DecidableEq, Repr

/-- What a C call hands back: nothing (`void`), an `int`, or a pointer to a
`struct coresight_csr` (`none` is `NULL`). -/
inductive CRet where
  | void
  | int (v : Int)
  | ptr (p : Option coresight_csr)
deriving DecidableEq, Repr

/-- Modelled from the spec: `EINVAL` of the errno headers (not among the sources), the
error number behind the result the spec calls "not supported". -/
def EINVAL : Int := 22

/-- Source: `static inline void msm_qdss_csr_enable_bam_to_usb(struct coresight_csr *csr) {}`. -/
def msm_qdss_csr_enable_bam_to_usb (_csr : Option coresight_csr) (s : Iomem) :
    CRet × Iomem := (CRet.void, s)

/-- Source: `extern void msm_qdss_csr_enable_flush(struct coresight_csr *csr) {}`. -/
def msm_qdss_csr_enable_flush (_csr : Option coresight_csr) (s : Iomem) :
    CRet × Iomem := (CRet.void, s)

/-- Source: `static inline void msm_qdss_csr_disable_bam_to_usb(struct coresight_csr *csr) {}`. -/
def msm_qdss_csr_disable_bam_to_usb (_csr : Option coresight_csr) (s : Iomem) :
    CRet × Iomem := (CRet.void, s)

/-- Source: `static inline void msm_qdss_csr_disable_flush(struct coresight_csr *csr) {}`. -/
def msm_qdss_csr_disable_flush (_csr : Option coresight_csr) (s : Iomem) :
    CRet × Iomem := (CRet.void, s)

/-- Source: `static inline int coresight_csr_hwctrl_set(csr, addr, val) { return -EINVAL; }`. -/
def coresight_csr_hwctrl_set (_csr : Option coresight_csr) (_addr _val : Nat)
    (s : Iomem) : CRet × Iomem := (CRet.int (-EINVAL), s)

/-- Source: `static inline void coresight_csr_set_byte_cntr(csr, count) {}`. -/
def coresight_csr_set_byte_cntr (_csr : Option coresight_csr) (_count : Nat)
    (s : Iomem) : CRet × Iomem := (CRet.void, s)

/-- Source: `static inline struct coresight_csr *coresight_csr_get(const char *name) { return NULL; }`. -/
def coresight_csr_get (_name : String) (s : Iomem) : CRet × Iomem :=
  (CRet.ptr none, s)

/-- A call returned an error code: a negative `int`. -/
def returnsError (r : CRet) : Bool :=
  match r with
  | CRet.int v => decide (v < 0)
  | _ => false

/-- A register space holding the listed 32-bit values, little-endian, in the four
bytes at the listed byte addresses (the first entry covering a byte counts),
zero elsewhere, with no access made. -/
def iomemOf (l : List (Int × Nat)) : Iomem :=
  { mem := fun x =>
      match l.find? (fun p => decide (p.1 ≤ x ∧ x < p.1 + 4)) with
      | some p => p.2 / 2 ^ (8 * (x - p.1).toNat) % 256
      | none => 0,
    log := [] }

/-! ## Path activation

`coresight_enable_path` and `coresight_disable_path` are only declared in the
header; their behaviour is taken from sections 3, 4.2, 4.5 and 8 of the
specification. -/

/-- Source: `enum cs_mode`. -/
inductive cs_mode where
  | CS_MODE_DISABLED
  | CS_MODE_SYSFS
  | CS_MODE_PERF
deriving DecidableEq, Repr

/-- Modelled from the spec: the claim state of a Device (section 3), free or
claimed by an agent; the Claim-Tag Arbiter is not among the sources. -/
inductive ClaimState where
  | free
  | claimed (agent : Nat)
deriving DecidableEq, Repr

/-- Modelled from the spec: the state of a Device that path activation changes
(section 3), along the state machine of section 4.2, FREE → CLAIMED(agent) →
FREE. A FREE device is disabled and has no enable reference, by the invariant of
section 3 that the claim is held for the whole interval a Device is enabled; a
claimed device has its owning agent, its current mode and its enable reference
count. The device structure is not among the sources. -/
inductive Device where
  | free
  | claimed (agent : Nat) (mode : cs_mode) (refcnt : Nat)
deriving DecidableEq, Repr

/-- The claim state of a device (section 3). -/
def Device.claim : Device → ClaimState
  | Device.free => ClaimState.free
  | Device.claimed agent _ _ => ClaimState.claimed agent

/-- The current mode of a device (section 3); a FREE device is disabled. -/
def Device.mode : Device → cs_mode
  | Device.free => cs_mode.CS_MODE_DISABLED
  | Device.claimed _ mode _ => mode

/-- The enable reference count of a device (section 3); a FREE device has none. -/
def Device.refcnt : Device → Nat
  | Device.free => 0
  | Device.claimed _ _ refcnt => refcnt

/-- Modelled from the spec: the error taxonomy of section 7, with the
`AlreadyClaimed` of section 4.2; no error type is among the sources. -/
inductive CsError where
  | NoRoute
  | SinkUnavailable
  | DeviceBusy
  | Timeout
  | NotOwner
  | Unsupported
  | AlreadyClaimed
deriving DecidableEq, Repr

/-- Modelled from the spec: the state of the trace fabric, one Device per unique
identity (section 3); the device registry is not among the sources. -/
def Fabric : Type := Nat → Device

/-- The fabric `f` with device `d` replaced by `v`. -/
def Fabric.set (f : Fabric) (d : Nat) (v : Device) : Fabric :=
  fun x => if x = d then v else f x

/-- Modelled from the spec: `claim(device, agent)` of section 4.2, whose code is not
among the sources: succeeds only if the device is FREE, then records the owning
agent; fails with `AlreadyClaimed` otherwise. `fault` is the injected claim
failure of section 8. -/
def claim (f : Fabric) (d agent : Nat) (fault : Bool) : Except CsError Fabric :=
  if fault then
    Except.error CsError.AlreadyClaimed
  else
    match f d with
    | Device.free =>
      Except.ok (f.set d (Device.claimed agent cs_mode.CS_MODE_DISABLED 0))
    | Device.claimed _ _ _ => Except.error CsError.AlreadyClaimed

/-- Modelled from the spec: `release(device, agent)` of section 4.2, whose code is
not among the sources: fails with `NotOwner` if the agent does not hold the
claim, otherwise the device becomes FREE. -/
def release (f : Fabric) (d agent : Nat) : Except CsError Fabric :=
  if (f d).claim = ClaimState.claimed agent then
    Except.ok (f.set d Device.free)
  else
    Except.error CsError.NotOwner

/-- Modelled from the spec: "already enabled by the same agent/mode" of section
4.5: the device is claimed by `agent`, runs under `mode` and has an enable
reference. -/
def already_enabled (f : Fabric) (d agent : Nat) (mode : cs_mode) : Bool :=
  decide ((f d).claim = ClaimState.claimed agent ∧ (f d).mode = mode ∧ 0 < (f d).refcnt)

/-- Modelled from the spec: the step of `enable_path` for one Device (section 4.5),
whose code is not among the sources: a Device already enabled by the same agent
and mode gets its reference count incremented; any other Device is claimed
under `mode` and becomes enabled with one more reference. -/
def enable_device (f : Fabric) (d agent : Nat) (mode : cs_mode) (fault : Bool) :
    Except CsError Fabric :=
  if already_enabled f d agent mode then
    Except.ok (f.set d (Device.claimed agent mode ((f d).refcnt + 1)))
  else
    match claim f d agent fault with
    | Except.error e => Except.error e
    | Except.ok f1 =>
      Except.ok (f1.set d (Device.claimed agent mode ((f1 d).refcnt + 1)))

/-- Modelled from the spec: the step of `disable_path` for one Device (section 4.5),
whose code is not among the sources: the reference count is decremented, and
only when it reaches zero is the Device disabled and its claim released; a
failing release does not stop the teardown. -/
def disable_device (f : Fabric) (d agent : Nat) : Fabric :=
  match f d with
  | Device.free => f
  | Device.claimed owner mode refcnt =>
    if refcnt - 1 = 0 then
      let f1 := f.set d (Device.claimed owner cs_mode.CS_MODE_DISABLED 0)
      match release f1 d agent with
      | Except.ok f2 => f2
      | Except.error _ => f1
    else
      f.set d (Device.claimed owner mode (refcnt - 1))

/-- Modelled from the spec: the rollback of `enable_path` (section 4.5), whose code
is not among the sources: every Device enabled so far in this call is disabled
and released, in reverse of the enable order (`done` lists the latest first). -/
def rollback (f : Fabric) (done : List Nat) (agent : Nat) : Fabric :=
  done.foldl (fun g d => disable_device g d agent) f

/-- Modelled from the spec: the claim loop of `enable_path` (section 4.5), whose
code is not among the sources, over the (position, device) pairs still to
enable. When the claim of a device fails the loop rolls back and reports the
position on the path of that device; otherwise it reports `none`. -/
def enable_from (agent : Nat) (mode : cs_mode) (fault : Nat → Bool) :
    List (Nat × Nat) → List Nat → Fabric → Option Nat × Fabric
  | [], _, f => (none, f)
  | (k, d) :: rest, done, f =>
    match enable_device f d agent mode (fault k) with
    | Except.error _ => (some k, rollback f done agent)
    | Except.ok f1 => enable_from agent mode fault rest (d :: done) f1

/-- Modelled from the spec: `enable_path(path, mode)` of section 4.5, which the
header only declares, as `coresight_enable_path`. The path lists the devices
from the source to the sink and is walked from the sink end; a failed claim rolls
back and fails with `DeviceBusy`; once all devices are claimed each one that was
not already enabled is programmed in the same order (`program d` is the error of
the device-kind collaborator, if any), and a programming failure triggers the
same rollback. `fault k` injects a claim failure at position `k` of the path. -/
def coresight_enable_path (f : Fabric) (path : List Nat) (mode : cs_mode) (agent : Nat)
    (fault : Nat → Bool) (program : Nat → Option CsError) :
    Except CsError Unit × Fabric :=
  match enable_from agent mode fault path.enum.reverse [] f with
  | (some _, f1) => (Except.error CsError.DeviceBusy, f1)
  | (none, f1) =>
    match (path.reverse.filter (fun d => !already_enabled f d agent mode)).findSome?
        program with
    | some e => (Except.error e, rollback f1 path agent)
    | none => (Except.ok (), f1)

/-- The claim of the device at position `k` of the path fails during
`coresight_enable_path`: the claim loop stops there. -/
def claim_fails_at (f : Fabric) (path : List Nat) (mode : cs_mode) (agent : Nat)
    (fault : Nat → Bool) (k : Nat) : Prop :=
  k < path.length ∧ (enable_from agent mode fault path.enum.reverse [] f).1 = some k

/-- A fabric with the listed devices (the first entry for an identity counts) and
every other device free. -/
def fabricOf (l : List (Nat × Device)) : Fabric :=
  fun x => ((l.find? (fun p => decide (p.1 = x))).map Prod.snd).getD Device.free

/-! ## Bit macro lemmas -/

theorem BIT_eq (w n : Nat) (h : n < w) : BIT w n = 2 ^ n := by
  unfold BIT
  rw [Nat.shiftLeft_eq, Nat.one_mul]
  exact Nat.mod_eq_of_lt (Nat.pow_lt_pow_right (by decide) h)

theorem pow_lsb_le (lsb msb : Nat) (h : lsb ≤ msb) : 2 ^ lsb ≤ 2 ^ msb :=
  Nat.pow_le_pow_right (by decide) h

theorem BM_eq (w lsb msb : Nat) (h1 : lsb ≤ msb) (h2 : msb < w) :
    BM w lsb msb = 2 ^ (msb + 1) - 2 ^ lsb := by
  unfold BM
  rw [BIT_eq w msb h2, BIT_eq w lsb (by omega)]
  have hle := pow_lsb_le lsb msb h1
  have hw : 2 ^ (msb + 1) ≤ 2 ^ w := Nat.pow_le_pow_right (by decide) h2
  have hs : 2 ^ (msb + 1) = 2 ^ msb + 2 ^ msb := by rw [Nat.pow_succ]; omega
  have hpos : 0 < 2 ^ lsb := Nat.two_pow_pos lsb
  have e1 : (2 ^ msb + 2 ^ w - 2 ^ lsb) % 2 ^ w = 2 ^ msb - 2 ^ lsb := by
    have : 2 ^ msb + 2 ^ w - 2 ^ lsb = (2 ^ msb - 2 ^ lsb) + 2 ^ w := by omega
    rw [this, Nat.add_mod_right]
    exact Nat.mod_eq_of_lt (by omega)
  rw [e1]
  rw [Nat.mod_eq_of_lt (by omega)]
  omega

theorem mask_testBit (lsb msb i : Nat) (h1 : lsb ≤ msb) :
    (2 ^ (msb + 1) - 2 ^ lsb).testBit i = decide (lsb ≤ i ∧ i ≤ msb) := by
  have e : 2 ^ (msb + 1) - 2 ^ lsb = 2 ^ lsb * (2 ^ (msb + 1 - lsb) - 1) := by
    rw [Nat.mul_sub, ← Nat.pow_add, Nat.mul_one]
    congr 2
    omega
  rw [e, Nat.testBit_mul_pow_two, Nat.testBit_two_pow_sub_one]
  by_cases hi : lsb ≤ i
  · by_cases hj : i ≤ msb
    · have : i - lsb < msb + 1 - lsb := by omega
      simp [hi, hj, this]
    · have : ¬ (i - lsb < msb + 1 - lsb) := by omega
      simp [hi, hj, this]
  · simp [hi]

theorem GENMASK_eq (w lsb msb : Nat) (h1 : lsb ≤ msb) (h2 : msb < w) :
    GENMASK w msb lsb = 2 ^ (msb + 1) - 2 ^ lsb := by
  unfold GENMASK
  rw [Nat.shiftLeft_eq, Nat.one_mul]
  have hl : 2 ^ lsb < 2 ^ w := Nat.pow_lt_pow_right (by decide) (by omega)
  have hpos : 0 < 2 ^ lsb := Nat.two_pow_pos lsb
  rw [Nat.mod_eq_of_lt hl]
  have e1 : (2 ^ w - 1 + 2 ^ w - 2 ^ lsb) % 2 ^ w = 2 ^ w - 1 - 2 ^ lsb := by
    have : 2 ^ w - 1 + 2 ^ w - 2 ^ lsb = (2 ^ w - 1 - 2 ^ lsb) + 2 ^ w := by omega
    rw [this, Nat.add_mod_right]
    exact Nat.mod_eq_of_lt (by omega)
  rw [e1]
  have e2 : (2 ^ w - 1 - 2 ^ lsb + 1) % 2 ^ w = 2 ^ w - 2 ^ lsb := by
    rw [Nat.mod_eq_of_lt (by omega)]
    omega
  rw [e2]
  apply Nat.eq_of_testBit_eq
  intro i
  rw [Nat.testBit_and, Nat.testBit_shiftRight, Nat.testBit_two_pow_sub_one,
    mask_testBit lsb msb i h1]
  have e3 : 2 ^ w - 2 ^ lsb = 2 ^ (w - 1 + 1) - 2 ^ lsb := by
    congr 2
    omega
  rw [e3, mask_testBit lsb (w - 1) i (by omega)]
  by_cases hi : lsb ≤ i
  · by_cases hj : i ≤ msb
    · have a1 : i ≤ w - 1 := by omega
      have a2 : w - 1 - msb + i < w := by omega
      simp [hi, hj, a1, a2]
    · have a2 : ¬ (w - 1 - msb + i < w) := by omega
      simp [hi, hj, a2]
  · simp [hi]

theorem mask_and_shift (val lsb msb : Nat) (h1 : lsb ≤ msb) :
    (val &&& (2 ^ (msb + 1) - 2 ^ lsb)) >>> lsb
      = (val / 2 ^ lsb) % 2 ^ (msb - lsb + 1) := by
  apply Nat.eq_of_testBit_eq
  intro i
  rw [Nat.testBit_shiftRight, Nat.testBit_and, mask_testBit lsb msb _ h1,
    Nat.testBit_mod_two_pow, ← Nat.shiftRight_eq_div_pow, Nat.testBit_shiftRight]
  by_cases hj : i < msb - lsb + 1
  · have : lsb + i ≤ msb := by omega
    simp [hj, this, Nat.add_comm]
  · have : ¬ (lsb + i ≤ msb) := by omega
    simp [hj, this]

theorem BMVAL_eq (w val lsb msb : Nat) (h1 : lsb ≤ msb) (h2 : msb < w) :
    BMVAL w val lsb msb = (val / 2 ^ lsb) % 2 ^ (msb - lsb + 1) := by
  unfold BMVAL
  rw [GENMASK_eq w lsb msb h1 h2, mask_and_shift val lsb msb h1]

theorem or_shift32 (a b : Nat) (ha : a < 2 ^ 32) (hb : b < 2 ^ 32) :
    (a % 2 ^ 64 ||| ((b % 2 ^ 64) <<< 32) % 2 ^ 64) % 2 ^ 64 = a + b * 2 ^ 32 := by
  have h1 : a % 2 ^ 64 = a := Nat.mod_eq_of_lt (by omega)
  have h2 : b % 2 ^ 64 = b := Nat.mod_eq_of_lt (by omega)
  rw [h1, h2, Nat.shiftLeft_eq]
  have h3 : b * 2 ^ 32 % 2 ^ 64 = b * 2 ^ 32 := Nat.mod_eq_of_lt (by omega)
  rw [h3, Nat.lor_comm, Nat.mul_comm b, ← Nat.mul_add_lt_is_or ha b]
  rw [Nat.mod_eq_of_lt (by omega)]
  omega

/-! ## Authentication status -/

theorem BMVAL_authField (v i : Nat) (hi : i < 4) :
    BMVAL BITS_PER_LONG v (2 * i) (2 * i + 1) = authField v i := by
  rw [BMVAL_eq BITS_PER_LONG v (2 * i) (2 * i + 1) (by omega)
    (by unfold BITS_PER_LONG; omega)]
  unfold authField
  have : 2 * i + 1 - 2 * i + 1 = 2 := by omega
  rw [this]
  rfl

theorem authstatus_enabled_mapped (addr : Int) (s : Iomem) (h : addr ≠ 0) :
    (coresight_authstatus_enabled addr s).1
      = decide (¬ (authField (authstatus addr s) 0 = 2 ∨
          authField (authstatus addr s) 1 = 2 ∨
          authField (authstatus addr s) 2 = 2 ∨
          authField (authstatus addr s) 3 = 2)) := by
  have e0 := BMVAL_authField (authstatus addr s) 0 (by decide)
  have e1 := BMVAL_authField (authstatus addr s) 1 (by decide)
  have e2 := BMVAL_authField (authstatus addr s) 2 (by decide)
  have e3 := BMVAL_authField (authstatus addr s) 3 (by decide)
  simp only [Nat.mul_zero, Nat.mul_one, Nat.zero_add, Nat.reduceMul, Nat.reduceAdd] at e0 e1 e2 e3
  unfold coresight_authstatus_enabled
  rw [if_neg h]
  simp only [readl_relaxed]
  unfold authstatus at e0 e1 e2 e3 ⊢
  rw [e0, e1, e2, e3]
  split <;> simp_all

theorem authField_low8 (v i : Nat) (hi : i < 4) :
    authField v i = authField (v % 256) i := by
  unfold authField
  have h : i = 0 ∨ i = 1 ∨ i = 2 ∨ i = 3 := by omega
  rcases h with h | h | h | h <;> subst h <;> norm_num <;> omega

/-- C1, as stated, fails: at the mapped address 0x1000 with the authentication
status register holding 0b10, `coresight_authstatus_enabled` returns false
although the field at bits 1:0 equals the disabled encoding 0b10. -/
theorem authstatus_false_despite_disabled_field :
    ¬ ((coresight_authstatus_enabled 0x1000
          (iomemOf [(0x1000 + CORESIGHT_AUTHSTATUS, 2)])).1 = false →
        ∀ i, i < 4 →
          authField (authstatus 0x1000 (iomemOf [(0x1000 + CORESIGHT_AUTHSTATUS, 2)])) i
            ≠ 2) := by
  intro h
  exact h (by decide) 0 (by decide) (by decide)

/-- C1 (amended): for every mapped (non-null) address and every value of the
authentication status register, `coresight_authstatus_enabled` returns false
only if at least one of the four 2-bit fields (bits 1:0, 3:2, 5:4, 7:6) equals
the disabled encoding 0b10. -/
theorem authstatus_false_only_if_some_field_disabled (addr : Int) (s : Iomem)
    (hmapped : addr ≠ 0) (hres : (coresight_authstatus_enabled addr s).1 = false) :
    ∃ i, i < 4 ∧ authField (authstatus addr s) i = 2 := by
  rw [authstatus_enabled_mapped addr s hmapped] at hres
  simp only [decide_eq_false_iff_not, not_not] at hres
  rcases hres with h | h | h | h
  · exact ⟨0, by decide, h⟩
  · exact ⟨1, by decide, h⟩
  · exact ⟨2, by decide, h⟩
  · exact ⟨3, by decide, h⟩

theorem authstatus_false_only_if_some_field_disabled_witness :
    (0x1000 : Int) ≠ 0 ∧
    (coresight_authstatus_enabled 0x1000
      (iomemOf [(0x1000 + CORESIGHT_AUTHSTATUS, 0x20)])).1 = false ∧
    ∃ i, i < 4 ∧
      authField (authstatus 0x1000 (iomemOf [(0x1000 + CORESIGHT_AUTHSTATUS, 0x20)])) i = 2 :=
  ⟨by decide, by decide,
    authstatus_false_only_if_some_field_disabled 0x1000
      (iomemOf [(0x1000 + CORESIGHT_AUTHSTATUS, 0x20)]) (by decide) (by decide)⟩

/-- C2: on the null address `coresight_authstatus_enabled` returns false for
every register state and performs no access at all: registers and access log
are those it was given. -/
theorem authstatus_null_returns_false (s : Iomem) :
    coresight_authstatus_enabled 0 s = (false, s) ∧
    (coresight_authstatus_enabled 0 s).1 = false ∧
    (coresight_authstatus_enabled 0 s).2.log = s.log ∧
    (coresight_authstatus_enabled 0 s).2.regs = s.regs := by
  simp [coresight_authstatus_enabled]

/-- C9: for every mapped (non-null) address `coresight_authstatus_enabled` returns
true exactly when none of the four 2-bit fields at bits 1:0, 3:2, 5:4, 7:6 of the
authentication status register equals 0b10, and two register states whose
authentication status registers agree on bits 7:0 give the same result. -/
theorem authstatus_true_iff_no_field_disabled (addr : Int) (s t : Iomem)
    (hmapped : addr ≠ 0) :
    ((coresight_authstatus_enabled addr s).1 = true ↔
      ∀ i, i < 4 → authField (authstatus addr s) i ≠ 2) ∧
    (authstatus addr s % 2 ^ 8 = authstatus addr t % 2 ^ 8 →
      (coresight_authstatus_enabled addr s).1 = (coresight_authstatus_enabled addr t).1) := by
  constructor
  · rw [authstatus_enabled_mapped addr s hmapped]
    simp only [decide_eq_true_eq, not_or]
    constructor
    · rintro ⟨h0, h1, h2, h3⟩ i hi
      have h : i = 0 ∨ i = 1 ∨ i = 2 ∨ i = 3 := by omega
      rcases h with h | h | h | h <;> subst h <;> assumption
    · intro h
      exact ⟨h 0 (by decide), h 1 (by decide), h 2 (by decide), h 3 (by decide)⟩
  · intro h
    have h256 : (2 : Nat) ^ 8 = 256 := by norm_num
    rw [h256] at h
    rw [authstatus_enabled_mapped addr s hmapped, authstatus_enabled_mapped addr t hmapped,
      authField_low8 (authstatus addr s) 0 (by decide),
      authField_low8 (authstatus addr s) 1 (by decide),
      authField_low8 (authstatus addr s) 2 (by decide),
      authField_low8 (authstatus addr s) 3 (by decide),
      authField_low8 (authstatus addr t) 0 (by decide),
      authField_low8 (authstatus addr t) 1 (by decide),
      authField_low8 (authstatus addr t) 2 (by decide),
      authField_low8 (authstatus addr t) 3 (by decide), h]

theorem authstatus_true_iff_no_field_disabled_witness :
    (0x1000 : Int) ≠ 0 ∧
    (coresight_authstatus_enabled 0x1000
      (iomemOf [(0x1000 + CORESIGHT_AUTHSTATUS, 0xff)])).1 = true ∧
    (coresight_authstatus_enabled 0x1000
      (iomemOf [(0x1000 + CORESIGHT_AUTHSTATUS, 0xabcdef08)])).1 = false ∧
    (coresight_authstatus_enabled 0x1000
      (iomemOf [(0x1000 + CORESIGHT_AUTHSTATUS, 0xabcdef08)])).1
      = (coresight_authstatus_enabled 0x1000
          (iomemOf [(0x1000 + CORESIGHT_AUTHSTATUS, 0x08)])).1 :=
  ⟨by decide, by decide, by decide,
    (authstatus_true_iff_no_field_disabled 0x1000
      (iomemOf [(0x1000 + CORESIGHT_AUTHSTATUS, 0xabcdef08)])
      (iomemOf [(0x1000 + CORESIGHT_AUTHSTATUS, 0x08)]) (by decide)).2 (by decide)⟩

/-- C10: for every word width `w` and bit positions `lsb ≤ msb < w`, `n < w`,
with arithmetic modulo `2 ^ w`, `BM(lsb, msb)` is the mask with exactly the bits
`lsb..msb` set, it equals `GENMASK(msb, lsb)` and `2 ^ (msb + 1) - 2 ^ lsb`,
`BMVAL(val, lsb, msb)` is `(val AND BM(lsb, msb)) >> lsb`, that is
`(val div 2 ^ lsb) mod 2 ^ (msb - lsb + 1)`, and `BVAL(val, n)` is
`BMVAL(val, n, n)` and is 0 or 1. -/
theorem BM_BMVAL_BVAL_spec (w lsb msb n val : Nat) (h1 : lsb ≤ msb) (h2 : msb < w)
    (h3 : n < w) :
    (∀ i, (BM w lsb msb).testBit i = decide (lsb ≤ i ∧ i ≤ msb)) ∧
    BM w lsb msb = (2 ^ (msb + 1) - 2 ^ lsb) % 2 ^ w ∧
    GENMASK w msb lsb = BM w lsb msb ∧
    BMVAL w val lsb msb = (val &&& BM w lsb msb) >>> lsb ∧
    BMVAL w val lsb msb = (val / 2 ^ lsb) % 2 ^ (msb - lsb + 1) ∧
    BVAL w val n = BMVAL w val n n ∧
    (BVAL w val n = 0 ∨ BVAL w val n = 1) := by
  have hbm := BM_eq w lsb msb h1 h2
  have hgm := GENMASK_eq w lsb msb h1 h2
  have hlt : 2 ^ (msb + 1) - 2 ^ lsb < 2 ^ w := by
    have hw : 2 ^ (msb + 1) ≤ 2 ^ w := Nat.pow_le_pow_right (by decide) h2
    have hpos : 0 < 2 ^ lsb := Nat.two_pow_pos lsb
    have hw0 : 0 < 2 ^ w := Nat.two_pow_pos w
    omega
  have hbv : BVAL w val n = BMVAL w val n n := by
    unfold BVAL BMVAL
    have hp : 2 ^ (n + 1) - 2 ^ n = 2 ^ n := by
      have := Nat.pow_succ 2 n
      omega
    rw [GENMASK_eq w n n (Nat.le_refl n) h3, BIT_eq w n h3, hp]
  refine ⟨?_, ?_, ?_, ?_, ?_, hbv, ?_⟩
  · intro i
    rw [hbm]
    exact mask_testBit lsb msb i h1
  · rw [hbm, Nat.mod_eq_of_lt hlt]
  · rw [hbm, hgm]
  · unfold BMVAL
    rw [hbm, hgm]
  · exact BMVAL_eq w val lsb msb h1 h2
  · rw [hbv, BMVAL_eq w val n n (Nat.le_refl n) h3]
    have : n - n + 1 = 1 := by omega
    rw [this]
    omega

theorem BM_BMVAL_BVAL_spec_witness :
    (2 : Nat) ≤ 3 ∧ 3 < 32 ∧ 5 < 32 ∧
    BM 32 2 3 = (2 ^ (3 + 1) - 2 ^ 2) % 2 ^ 32 ∧
    GENMASK 32 3 2 = BM 32 2 3 ∧
    BMVAL 32 0xb7 2 3 = (0xb7 / 2 ^ 2) % 2 ^ (3 - 2 + 1) ∧
    BVAL 32 0xb7 5 = BMVAL 32 0xb7 5 5 ∧
    BM 32 2 3 = 12 ∧ BMVAL 32 0xb7 2 3 = 1 ∧ BVAL 32 0xb7 5 = 1 :=
  have h := BM_BMVAL_BVAL_spec 32 2 3 5 0xb7 (by decide) (by decide) (by decide)
  ⟨by decide, by decide, by decide, h.2.1, h.2.2.1, h.2.2.2.2.1, h.2.2.2.2.2.1,
    by decide, by decide, by decide⟩

/-! ## Byte-level memory lemmas -/

theorem regs_lt (s : Iomem) (a : Int) : s.regs a < 2 ^ 32 := by
  unfold Iomem.regs
  have h0 : s.mem a % 256 < 256 := Nat.mod_lt _ (by decide)
  have h1 : s.mem (a + 1) % 256 < 256 := Nat.mod_lt _ (by decide)
  have h2 : s.mem (a + 2) % 256 < 256 := Nat.mod_lt _ (by decide)
  have h3 : s.mem (a + 3) % 256 < 256 := Nat.mod_lt _ (by decide)
  norm_num
  omega

theorem regs_congr (s t : Iomem) (a : Int)
    (h : ∀ b, a ≤ b → b < a + 4 → t.mem b = s.mem b) : t.regs a = s.regs a := by
  unfold Iomem.regs
  rw [h a (by omega) (by omega), h (a + 1) (by omega) (by omega),
    h (a + 2) (by omega) (by omega), h (a + 3) (by omega) (by omega)]

theorem writel_mem_outside (v : Nat) (a b : Int) (s : Iomem) (h : b < a ∨ a + 4 ≤ b) :
    (writel_relaxed v a s).mem b = s.mem b := by
  have h0 : ¬ b = a := by omega
  have h1 : ¬ b = a + 1 := by omega
  have h2 : ¬ b = a + 2 := by omega
  have h3 : ¬ b = a + 3 := by omega
  simp only [writel_relaxed, if_neg h0, if_neg h1, if_neg h2, if_neg h3]

theorem writel_regs_same (v : Nat) (a : Int) (s : Iomem) :
    (writel_relaxed v a s).regs a = v % 2 ^ 32 := by
  have h1 : ¬ a + 1 = a := by omega
  have h2 : ¬ a + 2 = a := by omega
  have h3 : ¬ a + 3 = a := by omega
  have h21 : ¬ a + 2 = a + 1 := by omega
  have h31 : ¬ a + 3 = a + 1 := by omega
  have h32 : ¬ a + 3 = a + 2 := by omega
  simp only [Iomem.regs, writel_relaxed, if_true, if_neg h1, if_neg h2, if_neg h3,
    if_neg h21, if_neg h31, if_neg h32]
  have hw : v % 2 ^ 32 < 2 ^ 32 := Nat.mod_lt _ (by norm_num)
  generalize v % 2 ^ 32 = w at hw ⊢
  norm_num at hw ⊢
  omega

theorem writel_regs_disjoint (v : Nat) (a c : Int) (s : Iomem)
    (h : c + 4 ≤ a ∨ a + 4 ≤ c) : (writel_relaxed v a s).regs c = s.regs c := by
  apply regs_congr
  intro b hb1 hb2
  exact writel_mem_outside v a b s (by omega)

/-! ## Register pairs -/

theorem read_reg_pair_val_neg (addr lo hi : Int) (s : Iomem) (h : hi < 0) :
    (coresight_read_reg_pair addr lo hi s).1 = s.regs (addr + lo) % 2 ^ 32 := by
  simp only [coresight_read_reg_pair, readl_relaxed, if_pos h, Nat.or_zero]
  omega

theorem read_reg_pair_val_nonneg (addr lo hi : Int) (s : Iomem) (h : 0 ≤ hi) :
    (coresight_read_reg_pair addr lo hi s).1
      = s.regs (addr + lo) % 2 ^ 32 + (s.regs (addr + hi) % 2 ^ 32) * 2 ^ 32 := by
  have hlo : s.regs (addr + lo) % 2 ^ 32 < 2 ^ 32 := Nat.mod_lt _ (by norm_num)
  have hhi : s.regs (addr + hi) % 2 ^ 32 < 2 ^ 32 := Nat.mod_lt _ (by norm_num)
  have h' : ¬ hi < 0 := by omega
  simp only [coresight_read_reg_pair, readl_relaxed, if_neg h']
  exact or_shift32 _ _ hlo hhi

theorem write_reg_pair_neg (addr : Int) (val : Nat) (lo hi : Int) (s : Iomem)
    (h : hi < 0) :
    coresight_write_reg_pair addr val lo hi s
      = writel_relaxed (val % 2 ^ 32) (addr + lo) s := by
  have h' : ¬ hi ≥ 0 := by omega
  simp only [coresight_write_reg_pair, if_neg h']

theorem write_reg_pair_nonneg (addr : Int) (val : Nat) (lo hi : Int) (s : Iomem)
    (h : 0 ≤ hi) :
    coresight_write_reg_pair addr val lo hi s
      = writel_relaxed ((val >>> 32) % 2 ^ 32) (addr + hi)
          (writel_relaxed (val % 2 ^ 32) (addr + lo) s) := by
  have h' : hi ≥ 0 := h
  simp only [coresight_write_reg_pair, if_pos h']

theorem shift32_eq_div (val : Nat) (hval : val < 2 ^ 64) :
    (val >>> 32) % 2 ^ 32 % 2 ^ 32 = val / 2 ^ 32 := by
  rw [Nat.shiftRight_eq_div_pow]
  omega

theorem write_reg_pair_lo (addr : Int) (val : Nat) (lo hi : Int) (s : Iomem)
    (h : hi < 0 ∨ lo + 4 ≤ hi ∨ hi + 4 ≤ lo) :
    (coresight_write_reg_pair addr val lo hi s).regs (addr + lo) = val % 2 ^ 32 := by
  by_cases hh : hi < 0
  · rw [write_reg_pair_neg addr val lo hi s hh, writel_regs_same]
    omega
  · rw [write_reg_pair_nonneg addr val lo hi s (by omega),
      writel_regs_disjoint _ _ _ _ (by omega), writel_regs_same]
    omega

theorem write_reg_pair_hi (addr : Int) (val : Nat) (lo hi : Int) (s : Iomem)
    (hval : val < 2 ^ 64) (h : 0 ≤ hi) :
    (coresight_write_reg_pair addr val lo hi s).regs (addr + hi) = val / 2 ^ 32 := by
  rw [write_reg_pair_nonneg addr val lo hi s h, writel_regs_same,
    shift32_eq_div val hval]

/-- C3: for every register state and offsets `lo`, `hi`: with `hi` negative
`coresight_read_reg_pair` returns the 32-bit register at `lo` zero-extended (a
value below `2 ^ 32`), reading only that register; with `hi ≥ 0` it returns
`reg[lo] + reg[hi] * 2 ^ 32`; in both cases no register is modified. -/
theorem read_reg_pair_spec (addr lo hi : Int) (s : Iomem) :
    (hi < 0 →
      (coresight_read_reg_pair addr lo hi s).1 = s.regs (addr + lo) % 2 ^ 32 ∧
      (coresight_read_reg_pair addr lo hi s).1 < 2 ^ 32 ∧
      (coresight_read_reg_pair addr lo hi s).2.log = s.log ++ [Access.read (addr + lo)]) ∧
    (0 ≤ hi →
      (coresight_read_reg_pair addr lo hi s).1
        = s.regs (addr + lo) % 2 ^ 32 + (s.regs (addr + hi) % 2 ^ 32) * 2 ^ 32 ∧
      (coresight_read_reg_pair addr lo hi s).2.log
        = s.log ++ [Access.read (addr + lo), Access.read (addr + hi)]) ∧
    (coresight_read_reg_pair addr lo hi s).2.regs = s.regs ∧
    (coresight_read_reg_pair addr lo hi s).2.mem = s.mem := by
  have hmem : (coresight_read_reg_pair addr lo hi s).2.mem = s.mem := by
    unfold coresight_read_reg_pair
    by_cases h : hi < 0
    · simp only [readl_relaxed, if_pos h]
    · simp only [readl_relaxed, if_neg h]
  refine ⟨?_, ?_, ?_, hmem⟩
  · intro h
    refine ⟨read_reg_pair_val_neg addr lo hi s h, ?_, ?_⟩
    · rw [read_reg_pair_val_neg addr lo hi s h]
      exact Nat.mod_lt _ (by norm_num)
    · simp only [coresight_read_reg_pair, readl_relaxed, if_pos h]
  · intro h
    refine ⟨read_reg_pair_val_nonneg addr lo hi s h, ?_⟩
    have h' : ¬ hi < 0 := by omega
    simp only [coresight_read_reg_pair, readl_relaxed, if_neg h']
    simp
  · funext a
    exact regs_congr s _ a (fun b _ _ => by rw [hmem])

/-- C4, as stated, fails on the mapped block at 0x1000 with the value
0x1122334455667788. With `lo = 0x10`, `hi = 0x12` (distinct offsets, `hi ≥ 0`) the
second 4-byte store overlaps the first and the register at `lo` ends as
0x33447788, not `val mod 2 ^ 32`; with `lo = hi = 0x10` it ends as
`val div 2 ^ 32`; and with `hi` negative the store to `lo = 0x10` changes the
4-byte register at the other offset 0x11, which held 0. -/
theorem write_reg_pair_overlap_loses_low_half :
    (coresight_write_reg_pair 0x1000 0x1122334455667788 0x10 0x12 (iomemOf [])).regs
        (0x1000 + 0x10) = 0x33447788 ∧
    (coresight_write_reg_pair 0x1000 0x1122334455667788 0x10 0x12 (iomemOf [])).regs
        (0x1000 + 0x10) ≠ 0x1122334455667788 % 2 ^ 32 ∧
    (coresight_write_reg_pair 0x1000 0x1122334455667788 0x10 0x10 (iomemOf [])).regs
        (0x1000 + 0x10) ≠ 0x1122334455667788 % 2 ^ 32 ∧
    (coresight_write_reg_pair 0x1000 0x1122334455667788 0x10 (-1) (iomemOf [])).regs
        (0x1000 + 0x11) ≠ (iomemOf []).regs (0x1000 + 0x11) := by
  decide

/-- C4 (amended): for every register state, 64-bit `val` and offsets `lo`, `hi`:
with `hi` negative `coresight_write_reg_pair` issues the single store of
`val mod 2 ^ 32` to the register at `lo` (the upper half is not written
anywhere), sets that register to `val mod 2 ^ 32` and leaves every byte outside
it, hence every register that does not overlap it, unchanged; with `hi ≥ 0` it
issues the store of `val mod 2 ^ 32` to `lo` and then of `val div 2 ^ 32` to `hi`,
sets the register at `hi` to `val div 2 ^ 32` and, when the registers at `lo` and
`hi` do not overlap (`lo + 4 ≤ hi` or `hi + 4 ≤ lo`), the register at `lo` to
`val mod 2 ^ 32`, and leaves every byte outside the two, hence every register
that overlaps neither, unchanged. -/
theorem write_reg_pair_spec (addr : Int) (val : Nat) (lo hi : Int) (s : Iomem)
    (hval : val < 2 ^ 64) :
    (hi < 0 →
      (coresight_write_reg_pair addr val lo hi s).log
        = s.log ++ [Access.write (addr + lo) (val % 2 ^ 32)] ∧
      (coresight_write_reg_pair addr val lo hi s).regs (addr + lo) = val % 2 ^ 32 ∧
      (∀ b, b < addr + lo ∨ addr + lo + 4 ≤ b →
        (coresight_write_reg_pair addr val lo hi s).mem b = s.mem b) ∧
      (∀ a, a + 4 ≤ addr + lo ∨ addr + lo + 4 ≤ a →
        (coresight_write_reg_pair addr val lo hi s).regs a = s.regs a)) ∧
    (0 ≤ hi →
      (coresight_write_reg_pair addr val lo hi s).log
        = s.log ++ [Access.write (addr + lo) (val % 2 ^ 32),
                    Access.write (addr + hi) (val / 2 ^ 32)] ∧
      (coresight_write_reg_pair addr val lo hi s).regs (addr + hi) = val / 2 ^ 32 ∧
      (lo + 4 ≤ hi ∨ hi + 4 ≤ lo →
        (coresight_write_reg_pair addr val lo hi s).regs (addr + lo) = val % 2 ^ 32) ∧
      (∀ b, (b < addr + lo ∨ addr + lo + 4 ≤ b) ∧ (b < addr + hi ∨ addr + hi + 4 ≤ b) →
        (coresight_write_reg_pair addr val lo hi s).mem b = s.mem b) ∧
      (∀ a, (a + 4 ≤ addr + lo ∨ addr + lo + 4 ≤ a) ∧
          (a + 4 ≤ addr + hi ∨ addr + hi + 4 ≤ a) →
        (coresight_write_reg_pair addr val lo hi s).regs a = s.regs a)) := by
  have hmod : val % 2 ^ 32 % 2 ^ 32 = val % 2 ^ 32 := by omega
  constructor
  · intro h
    rw [write_reg_pair_neg addr val lo hi s h]
    refine ⟨?_, ?_, ?_, ?_⟩
    · simp only [writel_relaxed, hmod]
    · rw [writel_regs_same, hmod]
    · intro b hb
      exact writel_mem_outside _ _ b s hb
    · intro a ha
      exact writel_regs_disjoint _ _ a s ha
  · intro h
    refine ⟨?_, write_reg_pair_hi addr val lo hi s hval h, ?_, ?_, ?_⟩
    · rw [write_reg_pair_nonneg addr val lo hi s h]
      simp only [writel_relaxed, hmod, shift32_eq_div val hval, List.append_assoc,
        List.cons_append, List.nil_append]
    · intro hne
      exact write_reg_pair_lo addr val lo hi s (Or.inr hne)
    · intro b hb
      rw [write_reg_pair_nonneg addr val lo hi s h, writel_mem_outside _ _ b _ hb.2,
        writel_mem_outside _ _ b s hb.1]
    · intro a ha
      rw [write_reg_pair_nonneg addr val lo hi s h, writel_regs_disjoint _ _ a _ ha.2,
        writel_regs_disjoint _ _ a s ha.1]

theorem write_reg_pair_spec_witness :
    (0x1122334455667788 : Nat) < 2 ^ 64 ∧
    (coresight_write_reg_pair 0x1000 0x1122334455667788 0x10 0x14 (iomemOf [])).regs
      (0x1000 + 0x14) = 0x1122334455667788 / 2 ^ 32 ∧
    (coresight_write_reg_pair 0x1000 0x1122334455667788 0x10 0x14 (iomemOf [])).regs
      (0x1000 + 0x10) = 0x1122334455667788 % 2 ^ 32 ∧
    (coresight_write_reg_pair 0x1000 0x1122334455667788 0x10 (-1) (iomemOf [])).log
      = [Access.write (0x1000 + 0x10) (0x1122334455667788 % 2 ^ 32)] :=
  have h := write_reg_pair_spec 0x1000 0x1122334455667788 0x10 0x14 (iomemOf [])
    (by decide)
  have g := write_reg_pair_spec 0x1000 0x1122334455667788 0x10 (-1) (iomemOf [])
    (by decide)
  ⟨by decide, (h.2 (by decide)).2.1, (h.2 (by decide)).2.2.1 (by decide),
    (g.1 (by decide)).1⟩

/-- C8, as stated, fails for distinct offsets whose registers overlap: on the
mapped block at 0x1000, with `lo = 0x10` and `hi = 0x12`, writing
0x1122334455667788 and reading the pair back returns 0x1122334433447788. -/
theorem read_after_write_overlap_differs :
    (0x10 : Int) ≠ 0x12 ∧ (0 : Int) ≤ 0x12 ∧
    (coresight_read_reg_pair 0x1000 0x10 0x12
      (coresight_write_reg_pair 0x1000 0x1122334455667788 0x10 0x12 (iomemOf []))).1
      = 0x1122334433447788 ∧
    (coresight_read_reg_pair 0x1000 0x10 0x12
      (coresight_write_reg_pair 0x1000 0x1122334455667788 0x10 0x12 (iomemOf []))).1
      ≠ 0x1122334455667788 := by
  decide

/-- C8 (amended): for every register state, 64-bit `val` and offsets `lo`, `hi`:
`coresight_read_reg_pair(lo, hi)` right after `coresight_write_reg_pair(val, lo, hi)`
returns exactly `val` when `hi ≥ 0` and the registers at `lo` and `hi` do not
overlap (`lo + 4 ≤ hi` or `hi + 4 ≤ lo`), and `val mod 2 ^ 32` when `hi` is
negative. -/
theorem read_after_write_reg_pair (addr : Int) (val : Nat) (lo hi : Int) (s : Iomem)
    (hval : val < 2 ^ 64) :
    (0 ≤ hi → lo + 4 ≤ hi ∨ hi + 4 ≤ lo →
      (coresight_read_reg_pair addr lo hi
        (coresight_write_reg_pair addr val lo hi s)).1 = val) ∧
    (hi < 0 →
      (coresight_read_reg_pair addr lo hi
        (coresight_write_reg_pair addr val lo hi s)).1 = val % 2 ^ 32) := by
  constructor
  · intro h hne
    rw [read_reg_pair_val_nonneg addr lo hi _ h, write_reg_pair_hi addr val lo hi s hval h,
      write_reg_pair_lo addr val lo hi s (Or.inr hne)]
    omega
  · intro h
    rw [read_reg_pair_val_neg addr lo hi _ h, write_reg_pair_lo addr val lo hi s (Or.inl h)]
    omega

theorem read_after_write_reg_pair_witness :
    (0x1122334455667788 : Nat) < 2 ^ 64 ∧
    (coresight_read_reg_pair 0x1000 0x10 0x14
      (coresight_write_reg_pair 0x1000 0x1122334455667788 0x10 0x14 (iomemOf []))).1
      = 0x1122334455667788 ∧
    (coresight_read_reg_pair 0x1000 0x10 (-1)
      (coresight_write_reg_pair 0x1000 0x1122334455667788 0x10 (-1) (iomemOf []))).1
      = 0x1122334455667788 % 2 ^ 32 :=
  ⟨by decide,
    (read_after_write_reg_pair 0x1000 0x1122334455667788 0x10 0x14 (iomemOf [])
      (by decide)).1 (by decide) (by decide),
    (read_after_write_reg_pair 0x1000 0x1122334455667788 0x10 (-1) (iomemOf [])
      (by decide)).2 (by decide)⟩

/-! ## Lock and unlock -/

/-- C5, as stated, fails: `CS_LOCK` on a block whose register at offset 0xfb0 holds
5 and whose register at `CORESIGHT_LSR` (0xfb4) holds 7 leaves 7 at `CORESIGHT_LSR`
and changes the register at offset 0xfb0; `CS_UNLOCK` with the key 0xc5acce55
likewise leaves 7 at `CORESIGHT_LSR`. -/
theorem CS_LOCK_does_not_write_LSR :
    (CS_LOCK 0x1000 (iomemOf [(0x1000 + 0xfb0, 5), (0x1000 + 0xfb4, 7)])).regs
      (0x1000 + CORESIGHT_LSR) = 7 ∧
    (CS_LOCK 0x1000 (iomemOf [(0x1000 + 0xfb0, 5), (0x1000 + 0xfb4, 7)])).regs
      (0x1000 + 0xfb0)
      ≠ (iomemOf [(0x1000 + 0xfb0, 5), (0x1000 + 0xfb4, 7)]).regs (0x1000 + 0xfb0) ∧
    (CS_UNLOCK 0xc5acce55 0x1000 (iomemOf [(0x1000 + 0xfb0, 5), (0x1000 + 0xfb4, 7)])).regs
      (0x1000 + CORESIGHT_LSR) = 7 := by
  decide

/-- C5 (amended): for every component and register state, `CS_UNLOCK` writes the
unlock key and `CS_LOCK` writes zero to the register at the lock access register
offset (`CORESIGHT_LAR`, 0xfb0), neither changes any byte outside that register,
hence no other register of the block (the one at `CORESIGHT_LSR`, 0xfb4,
included), `CS_LOCK` issues its barrier before the write and `CS_UNLOCK` after
it. -/
theorem CS_LOCK_UNLOCK_write_LAR (unlockKey : Nat) (addr : Int) (s : Iomem) :
    CORESIGHT_LAR = 0xfb0 ∧
    (CS_UNLOCK unlockKey addr s).regs (addr + CORESIGHT_LAR) = unlockKey % 2 ^ 32 ∧
    (∀ b, b < addr + CORESIGHT_LAR ∨ addr + CORESIGHT_LAR + 4 ≤ b →
      (CS_UNLOCK unlockKey addr s).mem b = s.mem b) ∧
    (∀ a, a + 4 ≤ addr + CORESIGHT_LAR ∨ addr + CORESIGHT_LAR + 4 ≤ a →
      (CS_UNLOCK unlockKey addr s).regs a = s.regs a) ∧
    (CS_UNLOCK unlockKey addr s).regs (addr + CORESIGHT_LSR) = s.regs (addr + CORESIGHT_LSR) ∧
    (CS_UNLOCK unlockKey addr s).log
      = s.log ++ [Access.write (addr + CORESIGHT_LAR) (unlockKey % 2 ^ 32), Access.barrier] ∧
    (CS_LOCK addr s).regs (addr + CORESIGHT_LAR) = 0 ∧
    (∀ b, b < addr + CORESIGHT_LAR ∨ addr + CORESIGHT_LAR + 4 ≤ b →
      (CS_LOCK addr s).mem b = s.mem b) ∧
    (∀ a, a + 4 ≤ addr + CORESIGHT_LAR ∨ addr + CORESIGHT_LAR + 4 ≤ a →
      (CS_LOCK addr s).regs a = s.regs a) ∧
    (CS_LOCK addr s).regs (addr + CORESIGHT_LSR) = s.regs (addr + CORESIGHT_LSR) ∧
    (CS_LOCK addr s).log
      = s.log ++ [Access.barrier, Access.write (addr + CORESIGHT_LAR) 0] := by
  have hu : ∀ a, (CS_UNLOCK unlockKey addr s).regs a
      = (writel_relaxed unlockKey (addr + CORESIGHT_LAR) s).regs a := fun _ => rfl
  have hl : ∀ a, (CS_LOCK addr s).regs a
      = (writel_relaxed 0 (addr + CORESIGHT_LAR) (mb s)).regs a := fun _ => rfl
  have hmb : ∀ a, (mb s).regs a = s.regs a := fun _ => rfl
  have hlsr : addr + CORESIGHT_LSR + 4 ≤ addr + CORESIGHT_LAR ∨
      addr + CORESIGHT_LAR + 4 ≤ addr + CORESIGHT_LSR := by
    unfold CORESIGHT_LSR CORESIGHT_LAR
    omega
  refine ⟨rfl, ?_, ?_, ?_, ?_, ?_, ?_, ?_, ?_, ?_, ?_⟩
  · rw [hu, writel_regs_same]
  · intro b hb
    exact writel_mem_outside unlockKey _ b s hb
  · intro a ha
    rw [hu, writel_regs_disjoint _ _ a s ha]
  · rw [hu, writel_regs_disjoint _ _ _ s hlsr]
  · simp [CS_UNLOCK, mb, writel_relaxed]
  · rw [hl, writel_regs_same]
    rfl
  · intro b hb
    exact writel_mem_outside 0 _ b (mb s) hb
  · intro a ha
    rw [hl, writel_regs_disjoint _ _ a (mb s) ha, hmb]
  · rw [hl, writel_regs_disjoint _ _ _ (mb s) hlsr, hmb]
  · simp [CS_LOCK, mb, writel_relaxed]

/-! ## CSR stubs -/

/-- C6, as stated, fails: with the CSR subsystem absent `coresight_csr_set_byte_cntr`
and the four USB-bridge toggles are `void` and hand back no error at all (here
on a null csr and an untouched register space). -/
theorem csr_void_stubs_return_no_error :
    returnsError (coresight_csr_set_byte_cntr none 0 (iomemOf [])).1 = false ∧
    returnsError (msm_qdss_csr_enable_bam_to_usb none (iomemOf [])).1 = false ∧
    returnsError (msm_qdss_csr_enable_flush none (iomemOf [])).1 = false ∧
    returnsError (msm_qdss_csr_disable_bam_to_usb none (iomemOf [])).1 = false ∧
    returnsError (msm_qdss_csr_disable_flush none (iomemOf [])).1 = false := by
  decide

/-- C6 (amended): with the CSR subsystem absent, `coresight_csr_get` returns NULL
for every name; `coresight_csr_hwctrl_set` returns the error `-EINVAL`, never
success (0), for every csr, address and value; `coresight_csr_set_byte_cntr` and
the four USB-bridge toggles return nothing; none of the seven touches the
register space. -/
theorem csr_stubs_spec (csr : Option coresight_csr) (name : String)
    (addr val count : Nat) (s : Iomem) :
    coresight_csr_get name s = (CRet.ptr none, s) ∧
    coresight_csr_hwctrl_set csr addr val s = (CRet.int (-EINVAL), s) ∧
    returnsError (coresight_csr_hwctrl_set csr addr val s).1 = true ∧
    (coresight_csr_hwctrl_set csr addr val s).1 ≠ CRet.int 0 ∧
    coresight_csr_set_byte_cntr csr count s = (CRet.void, s) ∧
    msm_qdss_csr_enable_bam_to_usb csr s = (CRet.void, s) ∧
    msm_qdss_csr_enable_flush csr s = (CRet.void, s) ∧
    msm_qdss_csr_disable_bam_to_usb csr s = (CRet.void, s) ∧
    msm_qdss_csr_disable_flush csr s = (CRet.void, s) := by
  refine ⟨rfl, rfl, ?_, ?_, rfl, rfl, rfl, rfl, rfl⟩
  · simp [coresight_csr_hwctrl_set, returnsError, EINVAL]
  · simp [coresight_csr_hwctrl_set, EINVAL]

/-! ## Path activation -/

theorem Fabric.set_same (f : Fabric) (d : Nat) (v : Device) : (f.set d v) d = v := by
  simp [Fabric.set]

theorem Fabric.set_other (f : Fabric) (d x : Nat) (v : Device) (h : x ≠ d) :
    (f.set d v) x = f x := by
  simp [Fabric.set, h]

theorem Fabric.ext_at (f g : Fabric) (d : Nat) (hd : g d = f d)
    (ho : ∀ x, x ≠ d → g x = f x) : g = f := by
  funext x
  by_cases h : x = d
  · rw [h, hd]
  · exact ho x h

theorem claim_ok (f f2 : Fabric) (d agent : Nat) (fault : Bool)
    (h : claim f d agent fault = Except.ok f2) :
    f d = Device.free ∧
    f2 = f.set d (Device.claimed agent cs_mode.CS_MODE_DISABLED 0) := by
  unfold claim at h
  cases fault with
  | true => simp at h
  | false =>
    cases hc : f d with
    | free =>
      rw [hc] at h
      simp only [Bool.false_eq_true, if_false] at h
      injection h with h
      exact ⟨rfl, h.symm⟩
    | claimed a m r =>
      rw [hc] at h
      simp at h

theorem already_enabled_iff (f : Fabric) (d agent : Nat) (mode : cs_mode) :
    already_enabled f d agent mode = true ↔
      ∃ r, 0 < r ∧ f d = Device.claimed agent mode r := by
  unfold already_enabled
  cases hc : f d with
  | free => simp [Device.claim]
  | claimed a m r =>
    simp only [Device.claim, Device.mode, Device.refcnt, decide_eq_true_eq,
      ClaimState.claimed.injEq, Device.claimed.injEq]
    constructor
    · rintro ⟨h1, h2, h3⟩
      exact ⟨r, h3, h1, h2, rfl⟩
    · rintro ⟨r', h3, h1, h2, h4⟩
      exact ⟨h1, h2, by omega⟩

theorem enable_device_other (f f1 : Fabric) (d agent : Nat) (mode : cs_mode)
    (fault : Bool) (h : enable_device f d agent mode fault = Except.ok f1)
    (x : Nat) (hx : x ≠ d) : f1 x = f x := by
  unfold enable_device at h
  split at h
  · injection h with h
    rw [← h, Fabric.set_other _ _ _ _ hx]
  · cases hc : claim f d agent fault with
    | error e =>
      rw [hc] at h
      simp at h
    | ok f2 =>
      rw [hc] at h
      injection h with h
      rw [← h, Fabric.set_other _ _ _ _ hx, (claim_ok f f2 d agent fault hc).2,
        Fabric.set_other _ _ _ _ hx]

theorem disable_enable_device (f f1 : Fabric) (d agent : Nat) (mode : cs_mode)
    (fault : Bool) (h : enable_device f d agent mode fault = Except.ok f1) :
    disable_device f1 d agent = f := by
  have ho := enable_device_other f f1 d agent mode fault h
  unfold enable_device at h
  split at h
  · rename_i hen
    obtain ⟨r, hr, hfd⟩ := (already_enabled_iff f d agent mode).1 hen
    injection h with h
    have hf1 : f1 d = Device.claimed agent mode (r + 1) := by
      rw [← h, Fabric.set_same, hfd]
      rfl
    unfold disable_device
    rw [hf1]
    have hne : ¬ (r + 1 - 1 = 0) := by omega
    simp only [if_neg hne]
    apply Fabric.ext_at f _ d
    · rw [Fabric.set_same, hfd]
      simp
    · intro x hx
      rw [Fabric.set_other _ _ _ _ hx]
      exact ho x hx
  · cases hc : claim f d agent fault with
    | error e =>
      rw [hc] at h
      simp at h
    | ok f2 =>
      rw [hc] at h
      injection h with h
      obtain ⟨hfree, hf2⟩ := claim_ok f f2 d agent fault hc
      have hf1 : f1 d = Device.claimed agent mode 1 := by
        rw [← h, Fabric.set_same, hf2, Fabric.set_same]
        rfl
      unfold disable_device
      rw [hf1]
      simp only [Nat.sub_self, if_true, release, Fabric.set_same, Device.claim]
      apply Fabric.ext_at f _ d
      · rw [Fabric.set_same, hfree]
      · intro x hx
        rw [Fabric.set_other _ _ _ _ hx, Fabric.set_other _ _ _ _ hx]
        exact ho x hx

theorem enable_from_restores (agent : Nat) (mode : cs_mode) (fault : Nat → Bool)
    (f0 : Fabric) (todo : List (Nat × Nat)) :
    ∀ (done : List Nat) (f : Fabric) (k : Nat),
      rollback f done agent = f0 →
      (enable_from agent mode fault todo done f).1 = some k →
      (enable_from agent mode fault todo done f).2 = f0 := by
  induction todo with
  | nil =>
    intro done f k _ h
    simp [enable_from] at h
  | cons p rest ih =>
    intro done f k hrb h
    obtain ⟨j, d⟩ := p
    unfold enable_from at h ⊢
    cases he : enable_device f d agent mode (fault j) with
    | error e =>
      exact hrb
    | ok f1 =>
      rw [he] at h
      simp only at h ⊢
      apply ih (d :: done) f1 k _ h
      unfold rollback
      rw [List.foldl_cons, disable_enable_device f f1 d agent mode (fault j) he]
      exact hrb

theorem enable_path_of_claim_failure (f : Fabric) (path : List Nat)
    (mode : cs_mode) (agent : Nat) (fault : Nat → Bool) (program : Nat → Option CsError)
    (k : Nat) (hk : claim_fails_at f path mode agent fault k) :
    coresight_enable_path f path mode agent fault program
      = (Except.error CsError.DeviceBusy, f) := by
  have hres := enable_from_restores agent mode fault f path.enum.reverse [] f k rfl hk.2
  have hfst := hk.2
  unfold coresight_enable_path
  cases he : enable_from agent mode fault path.enum.reverse [] f with
  | mk o f1 =>
    rw [he] at hres hfst
    simp only at hres hfst
    rw [hfst, hres]

theorem enable_from_injected (agent : Nat) (mode : cs_mode) (k : Nat)
    (todo : List (Nat × Nat)) :
    ∀ (done : List Nat) (f : Fabric), (∃ d, (k, d) ∈ todo) →
      (∀ p, p ∈ todo → f p.2 = Device.free) → (todo.map Prod.snd).Nodup →
      (enable_from agent mode (fun j => j == k) todo done f).1 = some k := by
  induction todo with
  | nil =>
    intro done f hmem _ _
    obtain ⟨d, hd⟩ := hmem
    cases hd
  | cons p rest ih =>
    intro done f hmem hfree hnd
    obtain ⟨j, d⟩ := p
    have hd : f d = Device.free := hfree (j, d) (List.mem_cons_self _ _)
    have hne : already_enabled f d agent mode = false := by
      simp [already_enabled, hd, Device.claim]
    unfold enable_from
    by_cases hjk : j = k
    · have he : enable_device f d agent mode (j == k) = Except.error CsError.AlreadyClaimed := by
        simp [enable_device, hne, claim, hjk]
      rw [he, hjk]
    · have he : enable_device f d agent mode (j == k)
          = Except.ok ((f.set d (Device.claimed agent cs_mode.CS_MODE_DISABLED 0)).set d
              (Device.claimed agent mode
                (((f.set d (Device.claimed agent cs_mode.CS_MODE_DISABLED 0)) d).refcnt + 1))) := by
        simp [enable_device, hne, claim, hjk, hd]
      rw [he]
      simp only
      rw [List.map_cons, List.nodup_cons] at hnd
      apply ih
      · obtain ⟨d', hd'⟩ := hmem
        rcases List.mem_cons.1 hd' with h | h
        · injection h with h1 _
          exact absurd h1.symm hjk
        · exact ⟨d', h⟩
      · intro p hp
        have hpd : p.2 ≠ d := by
          intro heq
          have hm : p.2 ∈ rest.map Prod.snd := List.mem_map_of_mem Prod.snd hp
          rw [heq] at hm
          exact hnd.1 hm
        rw [Fabric.set_other _ _ _ _ hpd, Fabric.set_other _ _ _ _ hpd]
        exact hfree p (List.mem_cons_of_mem _ hp)
      · exact hnd.2

theorem injected_fault_fails_at (f : Fabric) (path : List Nat) (mode : cs_mode)
    (agent k : Nat) (hfree : ∀ d, d ∈ path → f d = Device.free) (hnd : path.Nodup)
    (hk : k < path.length) :
    claim_fails_at f path mode agent (fun j => j == k) k := by
  refine ⟨hk, ?_⟩
  apply enable_from_injected
  · refine ⟨path[k], ?_⟩
    rw [List.mem_reverse, List.mk_mem_enum_iff_getElem?]
    exact List.getElem?_eq_getElem hk
  · intro p hp
    rw [List.mem_reverse] at hp
    exact hfree p.2 (List.snd_mem_of_mem_enum hp)
  · rw [List.map_reverse, List.enum_map_snd]
    exact List.nodup_reverse.2 hnd

/-- C7: for every path and every position `k` on it, if claiming the `k`-th device
fails during `coresight_enable_path`, the call returns an error (`DeviceBusy`) and
afterwards every device's claim state, mode and enable reference count equal
their values before the call. No device is left claimed or enabled by the call:
each device that was free before it is free, disabled and unreferenced after it,
so when the failure is injected on a path of free devices no device of the path
is claimed or enabled afterwards. -/
theorem enable_path_claim_failure_restores (f : Fabric) (path : List Nat)
    (mode : cs_mode) (agent : Nat) (fault : Nat → Bool) (program : Nat → Option CsError)
    (k : Nat) (hk : claim_fails_at f path mode agent fault k) :
    (coresight_enable_path f path mode agent fault program).1
      = Except.error CsError.DeviceBusy ∧
    (∀ d, (coresight_enable_path f path mode agent fault program).2 d = f d ∧
      ((coresight_enable_path f path mode agent fault program).2 d).claim = (f d).claim ∧
      ((coresight_enable_path f path mode agent fault program).2 d).mode = (f d).mode ∧
      ((coresight_enable_path f path mode agent fault program).2 d).refcnt = (f d).refcnt) ∧
    (∀ d, (f d).claim = ClaimState.free →
      ((coresight_enable_path f path mode agent fault program).2 d).claim = ClaimState.free ∧
      ((coresight_enable_path f path mode agent fault program).2 d).mode
        = cs_mode.CS_MODE_DISABLED ∧
      ((coresight_enable_path f path mode agent fault program).2 d).refcnt = 0) ∧
    ((∀ d, d ∈ path → (f d).claim = ClaimState.free) →
      ∀ d, d ∈ path →
        ((coresight_enable_path f path mode agent fault program).2 d).claim = ClaimState.free ∧
        ((coresight_enable_path f path mode agent fault program).2 d).mode
          = cs_mode.CS_MODE_DISABLED ∧
        ((coresight_enable_path f path mode agent fault program).2 d).refcnt = 0) := by
  rw [enable_path_of_claim_failure f path mode agent fault program k hk]
  have hfree : ∀ d, (f d).claim = ClaimState.free →
      (f d).claim = ClaimState.free ∧ (f d).mode = cs_mode.CS_MODE_DISABLED ∧
      (f d).refcnt = 0 := by
    intro d hd
    cases hfd : f d with
    | free => exact ⟨rfl, rfl, rfl⟩
    | claimed a m r =>
      rw [hfd] at hd
      cases hd
  refine ⟨rfl, fun d => ⟨rfl, rfl, rfl, rfl⟩, hfree, ?_⟩
  intro hall d hd
  exact hfree d (hall d hd)

theorem enable_path_claim_failure_restores_witness :
    claim_fails_at (fabricOf []) [1, 2, 3] cs_mode.CS_MODE_SYSFS 1 (fun k => k == 1) 1 ∧
    (coresight_enable_path (fabricOf []) [1, 2, 3] cs_mode.CS_MODE_SYSFS 1 (fun k => k == 1)
      (fun _ => none)).1 = Except.error CsError.DeviceBusy ∧
    ∀ d, d ∈ [1, 2, 3] →
      ((coresight_enable_path (fabricOf []) [1, 2, 3] cs_mode.CS_MODE_SYSFS 1
        (fun k => k == 1) (fun _ => none)).2 d).claim = ClaimState.free ∧
      ((coresight_enable_path (fabricOf []) [1, 2, 3] cs_mode.CS_MODE_SYSFS 1
        (fun k => k == 1) (fun _ => none)).2 d).mode = cs_mode.CS_MODE_DISABLED ∧
      ((coresight_enable_path (fabricOf []) [1, 2, 3] cs_mode.CS_MODE_SYSFS 1
        (fun k => k == 1) (fun _ => none)).2 d).refcnt = 0 :=
  have h := enable_path_claim_failure_restores (fabricOf []) [1, 2, 3]
    cs_mode.CS_MODE_SYSFS 1 (fun k => k == 1) (fun _ => none) 1 ⟨by decide, by decide⟩
  ⟨⟨by decide, by decide⟩, h.1, h.2.2.2 (fun _ _ => rfl)⟩

end Coresight
